import Mathlib

/-
Verification of the install-resolve-enable pipeline of the
obsidian-automatic-installation-of-plugins repository.

Strings of the TypeScript source are modelled as `List Char`; filesystem
and network effects are modelled by explicit environments (oracles), and
each stateful operation is translated into a pure Lean function over
those environments.  The definitions follow the source files
`src/core/PluginEnabler.ts` (PluginEnabler, types, NetworkManager) and
the PluginInstaller source (installPluginById, unzipPlugin).
-/

namespace Installer

/-- Converts a Lean string literal into the `List Char` model of JS strings. -/
def str (s : String) : List Char := s.data

/-- Constant MAX_REDIRECTS from types (5). -/
def MAX_REDIRECTS : Int := 5

/-- Constant MAX_FILE_SIZE from types (100 MB). -/
def MAX_FILE_SIZE : Nat := 100 * 1024 * 1024

/-- An HTTP response as observed by `downloadFileWithRedirect`:
status code, optional declared content-length, optional Location
header, and the sizes of the data chunks the body is streamed in. -/
structure HttpResponse where
  statusCode : Nat
  contentLength : Option Nat
  location : Option (List Char)
  chunks : List Nat
deriving DecidableEq

/-- Behaviour of the network for one requested URL: a network error event,
a timeout (either the whole-transfer timer or the socket timeout; both
run the same cleanup in the source), or a response.  `writeErr` models the
destination write stream emitting an error event after the body streamed. -/
inductive NetBehavior where
  | netError
  | netTimeout
  | resp (r : HttpResponse) (writeErr : Bool)

/-- Terminal outcome of `downloadFileWithRedirect`, one constructor per
resolve/reject site of the source. -/
inductive DlResult where
  | success
  | tooManyRedirects
  | fileTooLarge
  | missingLocation
  | httpError (code : Nat)
  | timeout
  | networkError
  | writeError
deriving DecidableEq

/-- The per-chunk size accounting of the 200 branch: `bytesDownloaded`
accumulates chunk lengths and the transfer aborts as soon as the
cumulative count exceeds MAX_FILE_SIZE.  Returns `none` on abort. -/
def streamChunks (chunks : List Nat) (acc : Nat) : Option Nat :=
  match chunks with
  | [] => some acc
  | c :: rest =>
      if acc + c > MAX_FILE_SIZE then none else streamChunks rest (acc + c)

/-- The declared content-length check: a header is present and announces
more than MAX_FILE_SIZE bytes. -/
def declaredTooLarge (cl : Option Nat) : Bool :=
  match cl with
  | some size => decide (size > MAX_FILE_SIZE)
  | none => false

/-- One level of `downloadFileWithRedirect`, with the well-founded measure
`(maxRedirects + 1).toNat` made explicit as structural fuel (the fuel-0
branch coincides with the `maxRedirects < 0` rejection whenever
`fuel = (maxRedirects + 1).toNat`, which every call below maintains).
The second component of the result records whether a file exists at the
destination path after the call; `fileAtDest` is that state at entry.
Branch order follows the source: redirect-credit check, write-stream
creation, content-length cap, redirect statuses, non-200 statuses,
streamed-size cap, write error, success. -/
def downloadAux (env : List Char → NetBehavior) :
    Nat → Int → List Char → Bool → DlResult × Bool
  | 0, _, _, fileAtDest => (.tooManyRedirects, fileAtDest)
  | fuel + 1, maxRedirects, url, fileAtDest =>
    if maxRedirects < 0 then (.tooManyRedirects, fileAtDest)
    else
      -- fs.createWriteStream(dest): the file now exists at dest
      match env url with
      | .netError => (.networkError, false)      -- unlink, then reject
      | .netTimeout => (.timeout, false)          -- close, unlink, reject
      | .resp r writeErr =>
        if declaredTooLarge r.contentLength then
          (.fileTooLarge, false)                  -- close, unlink, reject
        else if [301, 302, 303, 307, 308].contains r.statusCode then
          match r.location with
          | none => (.missingLocation, true)      -- reject, no unlink
          | some loc =>
              -- close, unlink, recurse with one fewer redirect credit
              downloadAux env fuel (maxRedirects - 1) loc false
        else if r.statusCode ≠ 200 then
          (.httpError r.statusCode, true)         -- reject, no unlink
        else
          match streamChunks r.chunks 0 with
          | none => (.fileTooLarge, false)        -- close, unlink, reject
          | some _ =>
              if writeErr then (.writeError, false)  -- unlink, reject
              else (.success, true)

/-- Model of NetworkManager.downloadFileWithRedirect.  `url` is the
requested URL, `maxRedirects` the remaining redirect credit (default
MAX_REDIRECTS at the call sites), `fileAtDest` whether a file already
exists at the destination path when the call starts. -/
def downloadFileWithRedirect (env : List Char → NetBehavior)
    (url : List Char) (maxRedirects : Int) (fileAtDest : Bool) :
    DlResult × Bool :=
  downloadAux env (maxRedirects + 1).toNat maxRedirects url fileAtDest

/-- Which terminal outcomes leave a file behind at the destination path. -/
def DlResult.keepsFile : DlResult → Bool
  | .success => true
  | .missingLocation => true
  | .httpError _ => true
  | _ => false

/-- A network that answers every URL with a plain 404 response. -/
def env404 : List Char → NetBehavior := fun _ => .resp ⟨404, none, none, []⟩ false

/-- A redirect chain of exactly five hops (u0 → … → u5) ending in a 200. -/
def env7 : List Char → NetBehavior := fun u =>
  if u == str "u0" then .resp ⟨302, none, some (str "u1"), []⟩ false
  else if u == str "u1" then .resp ⟨302, none, some (str "u2"), []⟩ false
  else if u == str "u2" then .resp ⟨302, none, some (str "u3"), []⟩ false
  else if u == str "u3" then .resp ⟨302, none, some (str "u4"), []⟩ false
  else if u == str "u4" then .resp ⟨302, none, some (str "u5"), []⟩ false
  else if u == str "u5" then .resp ⟨200, none, none, [7]⟩ false
  else .netError

/-- A redirect chain of six hops (u0 → … → u6) ending in a 200. -/
def env7b : List Char → NetBehavior := fun u =>
  if u == str "u0" then .resp ⟨302, none, some (str "u1"), []⟩ false
  else if u == str "u1" then .resp ⟨302, none, some (str "u2"), []⟩ false
  else if u == str "u2" then .resp ⟨302, none, some (str "u3"), []⟩ false
  else if u == str "u3" then .resp ⟨302, none, some (str "u4"), []⟩ false
  else if u == str "u4" then .resp ⟨302, none, some (str "u5"), []⟩ false
  else if u == str "u5" then .resp ⟨302, none, some (str "u6"), []⟩ false
  else if u == str "u6" then .resp ⟨200, none, none, [7]⟩ false
  else .netError

/-- A redirect-status response carrying no Location header. -/
def envML : List Char → NetBehavior := fun _ => .resp ⟨302, none, none, []⟩ false

/-- A response declaring a content-length one byte over the cap. -/
def envBig : List Char → NetBehavior :=
  fun _ => .resp ⟨200, some (MAX_FILE_SIZE + 1), none, []⟩ false

/-- A 200 response with no declared length whose streamed bytes exceed the cap. -/
def envStream : List Char → NetBehavior :=
  fun _ => .resp ⟨200, none, none, [MAX_FILE_SIZE + 1]⟩ false

/-- After any call of the download operation that starts with no file at the
destination, a file remains at the destination exactly for the outcomes
listed in `DlResult.keepsFile` (success, missing Location, non-200 status). -/
theorem downloadAux_keepsFile (env : List Char → NetBehavior) :
    ∀ (fuel : Nat) (credits : Int) (url : List Char),
      (downloadAux env fuel credits url false).2
        = ((downloadAux env fuel credits url false).1).keepsFile := by
  intro fuel
  induction fuel with
  | zero => intro credits url; rfl
  | succ n ih =>
    intro credits url
    simp only [downloadAux]
    split
    · rfl
    · split
      · rfl
      · rfl
      · split
        · rfl
        · split
          · split
            · rfl
            · exact ih _ _
          · split
            · rfl
            · split
              · rfl
              · split
                · rfl
                · rfl

/-- C1 (counterexample): a terminal non-200 failure of the download
operation after which a file still exists at the destination path. -/
theorem download_failure_leaves_file_counterexample :
    (downloadFileWithRedirect env404 (str "u") MAX_REDIRECTS false).1 = .httpError 404
    ∧ (downloadFileWithRedirect env404 (str "u") MAX_REDIRECTS false).2 = true := by
  decide

/-- C1 (amended): for a download call that begins with no file at the
destination, the partial destination file is removed on every terminal
failure except a redirect response lacking a Location header and a
non-200 HTTP status response, which leave the partial file in place
(`DlResult.keepsFile` lists exactly the outcomes that keep the file). -/
theorem download_cleanup_on_failure (env : List Char → NetBehavior)
    (url : List Char) (maxRedirects : Int) :
    (downloadFileWithRedirect env url maxRedirects false).2
      = ((downloadFileWithRedirect env url maxRedirects false).1).keepsFile :=
  downloadAux_keepsFile env (maxRedirects + 1).toNat maxRedirects url

/-- The streaming size accounting aborts whenever the total streamed bytes
exceed the cap (starting from an in-budget accumulator). -/
theorem streamChunks_none (chunks : List Nat) :
    ∀ acc, acc ≤ MAX_FILE_SIZE → MAX_FILE_SIZE < acc + chunks.sum →
      streamChunks chunks acc = none := by
  induction chunks with
  | nil =>
    intro acc h1 h2
    simp only [List.sum_nil] at h2
    omega
  | cons c rest ih =>
    intro acc h1 h2
    simp only [List.sum_cons] at h2
    simp only [streamChunks]
    split
    · rfl
    · rename_i hle
      exact ih (acc + c) (by omega) (by omega)

/-- C6: the download operation fails with the file-too-large outcome and
leaves no file at the destination both when the declared content-length
exceeds the 100 MB cap (regardless of the body, i.e. before any payload
bytes are streamed) and when no or an in-budget content-length is declared
but the cumulative streamed bytes exceed the cap; the declared-length
check fires first. -/
theorem download_size_cap (env : List Char → NetBehavior) (url : List Char)
    (n : Int) (r : HttpResponse) (writeErr : Bool)
    (hn : 0 ≤ n) (henv : env url = .resp r writeErr) :
    (∀ s, r.contentLength = some s → MAX_FILE_SIZE < s →
        downloadFileWithRedirect env url n false = (.fileTooLarge, false))
    ∧ (r.statusCode = 200 →
        declaredTooLarge r.contentLength = false →
        MAX_FILE_SIZE < r.chunks.sum →
        downloadFileWithRedirect env url n false = (.fileTooLarge, false)) := by
  have hk : (n + 1).toNat = n.toNat + 1 := by omega
  have hneg : ¬ n < 0 := by omega
  have hcont : ([301, 302, 303, 307, 308].contains (200 : Nat)) = false := by decide
  constructor
  · intro s hs hbig
    have hd : declaredTooLarge r.contentLength = true := by
      rw [hs]; simp only [declaredTooLarge, decide_eq_true_eq]; omega
    unfold downloadFileWithRedirect
    rw [hk]
    simp [downloadAux, henv, hd, hneg]
  · intro h200 hdecl hsum
    have hstream : streamChunks r.chunks 0 = none :=
      streamChunks_none r.chunks 0 (by simp [MAX_FILE_SIZE]) (by omega)
    unfold downloadFileWithRedirect
    rw [hk]
    simp [downloadAux, henv, hdecl, h200, hcont, hneg, hstream]

/-- C6 (witness): both cap checks exercised at concrete inputs. -/
theorem download_size_cap_witness :
    downloadFileWithRedirect envBig (str "u") MAX_REDIRECTS false
      = (.fileTooLarge, false)
    ∧ downloadFileWithRedirect envStream (str "u") MAX_REDIRECTS false
      = (.fileTooLarge, false) :=
  ⟨(download_size_cap envBig (str "u") MAX_REDIRECTS _ false (by decide) rfl).1
      (MAX_FILE_SIZE + 1) rfl (by decide),
   (download_size_cap envStream (str "u") MAX_REDIRECTS _ false (by decide) rfl).2
      rfl rfl (by decide)⟩

/-- C7: a redirect chain of exactly MAX_REDIRECTS hops ending in an HTTP
200 succeeds; a chain one hop longer fails with the too-many-redirects
outcome; a redirect-status response lacking a Location header fails with
the missing-location outcome. -/
theorem download_redirect_chain :
    downloadFileWithRedirect env7 (str "u0") MAX_REDIRECTS false = (.success, true)
    ∧ (downloadFileWithRedirect env7b (str "u0") MAX_REDIRECTS false).1
        = .tooManyRedirects
    ∧ (downloadFileWithRedirect envML (str "u0") MAX_REDIRECTS false).1
        = .missingLocation := by
  decide

/-! Enable-time identifier resolution (PluginEnabler.enableSinglePlugin). -/

/-- Model of JS String.startsWith: `startsWith s p` is true when `p` is a
leading segment of `s`. -/
def startsWith (s p : List Char) : Bool :=
  match p, s with
  | [], _ => true
  | _ :: _, [] => false
  | a :: p', b :: s' => a == b && startsWith s' p'

/-- The fixed identifier prefix stripped by the resolution rules. -/
def OBSIDIAN : List Char := str "obsidian-"

/-- Model of the source's replace-with-anchored-regex call: removes one
leading "obsidian-" segment when present. -/
def stripObsidian (s : List Char) : List Char :=
  if startsWith s OBSIDIAN then s.drop OBSIDIAN.length else s

/-- The per-key disjunction of enableSinglePlugin's manifest scan
(lines 308–315): exact, strip-both-sides, strip-request-side, and
prefix-added-to-manifest-key comparisons. -/
def idVariationMatch (manifestId pluginId : List Char) : Bool :=
  manifestId == pluginId
    || stripObsidian manifestId == stripObsidian pluginId
    || manifestId == stripObsidian pluginId
    || OBSIDIAN ++ manifestId == pluginId

/-- Model of the manifest-key resolution of enableSinglePlugin
(lines 303–324): exact membership first, then the first manifest key in
enumeration order satisfying any identifier variation. -/
def resolvePluginId (manifests : List (List Char)) (pluginId : List Char) :
    Option (List Char) :=
  if manifests.contains pluginId then some pluginId
  else manifests.find? (fun m => idVariationMatch m pluginId)

/-- Spec strategy two: prefix-insensitive match, stripping the fixed
prefix from either or both sides of the comparison. -/
def stripStrategy (manifestId pluginId : List Char) : Bool :=
  stripObsidian manifestId == stripObsidian pluginId
    || manifestId == stripObsidian pluginId

/-- Spec strategy three: reverse match, adding the fixed prefix to the
manifest key. -/
def reverseStrategy (manifestId pluginId : List Char) : Bool :=
  OBSIDIAN ++ manifestId == pluginId

/-- Resolution as the spec words it: the three strategies tried in
priority order — exact key match, prefix-insensitive match, reverse
match — first match wins. -/
def resolvePluginIdSpec (manifests : List (List Char)) (pluginId : List Char) :
    Option (List Char) :=
  if manifests.contains pluginId then some pluginId
  else
    match manifests.find? (fun m => stripStrategy m pluginId) with
    | some m => some m
    | none => manifests.find? (fun m => reverseStrategy m pluginId)

theorem startsWith_append_self (p t : List Char) :
    startsWith (p ++ t) p = true := by
  induction p with
  | nil => simp [startsWith]
  | cons a p ih => simp [startsWith, ih]

theorem stripObsidian_append (m : List Char) :
    stripObsidian (OBSIDIAN ++ m) = m := by
  unfold stripObsidian
  rw [if_pos (startsWith_append_self OBSIDIAN m)]
  exact List.drop_left OBSIDIAN m

/-- The reverse strategy is subsumed by the strip strategy, which is why
the code's single-scan disjunction agrees with the spec's
strategy-priority reading. -/
theorem reverse_imp_strip (m p : List Char) :
    reverseStrategy m p = true → stripStrategy m p = true := by
  intro h
  simp only [reverseStrategy, beq_iff_eq] at h
  subst h
  simp [stripStrategy, stripObsidian_append]

theorem find?_or_split (l : List (List Char))
    (p q : List Char → Bool) (himp : ∀ a, q a = true → p a = true) :
    l.find? (fun a => p a || q a)
      = (match l.find? p with
         | some x => some x
         | none => l.find? q) := by
  induction l with
  | nil => rfl
  | cons a l ih =>
    cases hp : p a with
    | true =>
      have hor : (p a || q a) = true := by rw [hp]; rfl
      simp [List.find?, hp, hor]
    | false =>
      have hq' : q a = false := by
        cases hqa : q a
        · rfl
        · exact absurd (himp a hqa) (by rw [hp]; simp)
      have hor : (p a || q a) = false := by rw [hp, hq']; rfl
      simp [List.find?, hp, hq', hor, ih]

/-- C4: enable-time resolution is exactly the spec's priority-ordered
strategy list (exact match; prefix-insensitive match stripping the fixed
"obsidian-" prefix from either or both sides; reverse match adding the
prefix to the manifest key; first match wins), and the four consequences
named by the claim hold: "obsidian-foo" resolves against manifest key
"foo", "foo" resolves against "obsidian-foo", "foo" resolves against
"foo", and "foo" does not resolve against a manifest whose only key is
"bar". -/
theorem resolution_matches_spec_strategies
    (manifests : List (List Char)) (pluginId : List Char) :
    resolvePluginIdSpec manifests pluginId = resolvePluginId manifests pluginId
    ∧ resolvePluginId [str "foo"] (str "obsidian-foo") = some (str "foo")
    ∧ resolvePluginId [str "obsidian-foo"] (str "foo") = some (str "obsidian-foo")
    ∧ resolvePluginId [str "foo"] (str "foo") = some (str "foo")
    ∧ resolvePluginId [str "bar"] (str "foo") = none := by
  refine ⟨?_, by decide, by decide, by decide, by decide⟩
  unfold resolvePluginIdSpec resolvePluginId
  split
  · rfl
  · rename_i hc
    have hmem : ∀ m ∈ manifests, (m == pluginId) = false := by
      intro m hm
      simp [List.contains] at hc
      simp only [beq_eq_false_iff_ne]
      intro he
      exact absurd (he ▸ hm) hc
    have h1 : ∀ (l : List (List Char)), (∀ m ∈ l, (m == pluginId) = false) →
        l.find? (fun m => idVariationMatch m pluginId)
          = l.find?
              (fun m => stripStrategy m pluginId || reverseStrategy m pluginId) := by
      intro l
      induction l with
      | nil => intro _; rfl
      | cons a l ih =>
        intro hall
        have ha : (a == pluginId) = false := hall a (List.mem_cons_self a l)
        have heq : idVariationMatch a pluginId
            = (stripStrategy a pluginId || reverseStrategy a pluginId) := by
          simp [idVariationMatch, stripStrategy, reverseStrategy, ha,
            Bool.or_assoc]
        rw [List.find?_cons, List.find?_cons, heq]
        cases hsa : (stripStrategy a pluginId || reverseStrategy a pluginId) with
        | false =>
          simp only [cond_false]
          exact ih (fun m hm => hall m (List.mem_cons_of_mem a hm))
        | true => rfl
    rw [h1 manifests hmem,
      find?_or_split manifests _ _ (fun a => reverse_imp_strip a pluginId)]

/-! Archive extraction (PluginInstaller.unzipPlugin). -/

/-- An archive entry: its name in the zip table and whether it is a
directory entry. -/
structure ZipEntry where
  filename : List Char
  isDir : Bool
deriving DecidableEq

/-- Model of path.join for a folder and a relative path. -/
def pathJoin (a b : List Char) : List Char := a ++ '/' :: b

/-- Relative path computed for an archive entry (lines 262–264 of the
installer): strip one leading "identifier/" segment when present,
otherwise keep the entry name unchanged. -/
def entryRelativePath (pluginId filename : List Char) : List Char :=
  let rootPfx := pluginId ++ [ '/' ]
  if startsWith filename rootPfx then filename.drop rootPfx.length else filename

/-- The filesystem action taken for one archive entry. -/
inductive EntryAction where
  | skip
  | mkdir (p : List Char)
  | writeFile (p : List Char)
deriving DecidableEq

/-- Per-entry behaviour of unzipPlugin (lines 261–277): entries whose
stripped path is empty are skipped, directory entries are created,
file entries are materialised under the destination folder. -/
def processEntry (destFolder pluginId : List Char) (e : ZipEntry) : EntryAction :=
  let rel := entryRelativePath pluginId e.filename
  if rel = [] then .skip
  else if e.isDir then .mkdir (pathJoin destFolder rel)
  else .writeFile (pathJoin destFolder rel)

/-- unzipPlugin's extraction pass: one action per archive entry. -/
def unzipPlugin (destFolder pluginId : List Char) (entries : List ZipEntry) :
    List EntryAction :=
  entries.map (processEntry destFolder pluginId)

/-- C8: extraction strips exactly one leading "identifier/" segment when
the entry name starts with it, uses the entry path unchanged otherwise,
skips the entry whose stripped path is empty (the root-folder entry),
and materialises every file entry at the resulting relative path under
the destination folder; in particular "pluginA/main.js" lands at
"dest/main.js" while "other/main.js" lands at "dest/other/main.js". -/
theorem unzip_root_segment_stripping
    (pluginId rest filename destFolder : List Char) :
    entryRelativePath pluginId ((pluginId ++ [ '/' ]) ++ rest) = rest
    ∧ (startsWith filename (pluginId ++ [ '/' ]) = false →
        entryRelativePath pluginId filename = filename)
    ∧ (∀ d : Bool, processEntry destFolder pluginId ⟨pluginId ++ [ '/' ], d⟩ = .skip)
    ∧ (rest ≠ [] →
        processEntry destFolder pluginId ⟨(pluginId ++ [ '/' ]) ++ rest, false⟩
          = .writeFile (pathJoin destFolder rest))
    ∧ processEntry (str "dest") (str "pluginA") ⟨str "pluginA/main.js", false⟩
        = .writeFile (str "dest/main.js")
    ∧ processEntry (str "dest") (str "pluginA") ⟨str "other/main.js", false⟩
        = .writeFile (str "dest/other/main.js") := by
  have hstrip : entryRelativePath pluginId ((pluginId ++ [ '/' ]) ++ rest) = rest := by
    unfold entryRelativePath
    rw [if_pos (startsWith_append_self (pluginId ++ [ '/' ]) rest)]
    exact List.drop_left (pluginId ++ [ '/' ]) rest
  have hroot : entryRelativePath pluginId (pluginId ++ [ '/' ]) = [] := by
    unfold entryRelativePath
    rw [if_pos (by simpa using startsWith_append_self (pluginId ++ [ '/' ]) [])]
    exact List.drop_length _
  refine ⟨hstrip, ?_, ?_, ?_, by decide, by decide⟩
  · intro hns
    unfold entryRelativePath
    rw [if_neg (by simp [hns])]
  · intro _d
    simp [processEntry, hroot]
  · intro hrest
    have hstrip' : entryRelativePath pluginId (pluginId ++ '/' :: rest) = rest := by
      simpa using hstrip
    simp [processEntry, hstrip', hrest]

/-- C8 (witness): the stripping rules applied at concrete entries,
discharging each hypothesis of the claim theorem. -/
theorem unzip_root_segment_stripping_witness :
    entryRelativePath (str "x") (str "other/main.js") = str "other/main.js"
    ∧ processEntry (str "dest") (str "pluginA") ⟨str "pluginA/sub", false⟩
        = .writeFile (pathJoin (str "dest") (str "sub")) := by
  constructor
  · exact (unzip_root_segment_stripping (str "x") [] (str "other/main.js")
      (str "d")).2.1 (by decide)
  · exact (unzip_root_segment_stripping (str "pluginA") (str "sub")
      (str "f") (str "dest")).2.2.2.1 (by decide)

/-! Plugin installation (PluginInstaller.installPluginById). -/

/-- Model of JS String.trim. -/
def trimL (s : List Char) : List Char :=
  ((s.dropWhile Char.isWhitespace).reverse.dropWhile Char.isWhitespace).reverse

/-- Model of JS String.toLowerCase. -/
def lowerL (s : List Char) : List Char := s.map Char.toLower

/-- Model of JS String.endsWith, used for the ".zip" asset test. -/
def endsWith (s p : List Char) : Bool := startsWith s.reverse p.reverse

/-- A registry entry: its id and its repo field (`none` models a missing
or non-string repo value). -/
structure RegEntry where
  id : List Char
  repo : Option (List Char)
deriving DecidableEq

/-- A release asset: name and browser_download_url. -/
structure Asset where
  name : List Char
  url : List Char
deriving DecidableEq

/-- Network events emitted by one install call, in order: the registry
fetch, the latest-release fetch, and file downloads. -/
inductive Ev where
  | fetchRegistry
  | fetchRelease (owner repoName : List Char)
  | download (url dest : List Char)
deriving DecidableEq

/-- The world an install call runs against: filesystem state (which
paths exist), the registry fetch outcome, the per-repository release
fetch outcome (`Except` for a thrown fetch, the inner `Option` for a
response without an assets array), whether the plugins folder is
writable, per-URL download success, result of the post-download size
check, and whether extraction succeeds. -/
structure InstallEnv where
  fs : List Char → Bool
  registry : Except Unit (List RegEntry)
  releaseFor : List Char → List Char → Except Unit (Option (List Asset))
  writable : Bool
  downloadOk : List Char → Bool
  zipOversize : Bool
  unzipOk : Bool

/-- Result of one install call: the returned boolean, the network events
performed, and the filesystem state afterwards. -/
structure InstallResult where
  ok : Bool
  events : List Ev
  fs : List Char → Bool

/-- Marks a path as existing (ensureDirectory). -/
def addPath (fs : List Char → Bool) (q : List Char) : List Char → Bool :=
  fun p => p == q || fs p

/-- Model of PluginInstaller.installPluginById.  Mirrors the source's
control flow: invalid-id check, already-installed short-circuit,
registry fetch, normalized-id lookup, repo validation (missing or empty
string, then split-length check), release fetch, assets-array check,
writability check, plugin-folder creation, then the zip branch (download,
post-download size check, extraction; failures return false with the
created folder left in place) or the individual-assets branch (per-asset
downloads, failures logged but not fatal) or the empty-release failure. -/
def installPluginById (env : InstallEnv) (pluginId pluginsFolder : List Char) :
    InstallResult :=
  if trimL pluginId = [] then ⟨false, [], env.fs⟩
  else
    let pluginFolder := pathJoin pluginsFolder pluginId
    if env.fs pluginFolder then ⟨true, [], env.fs⟩
    else
      match env.registry with
      | .error _ => ⟨false, [.fetchRegistry], env.fs⟩
      | .ok reg =>
        match reg.find? (fun p => lowerL (trimL p.id) == lowerL (trimL pluginId)) with
        | none => ⟨false, [.fetchRegistry], env.fs⟩
        | some meta =>
          match meta.repo with
          | none => ⟨false, [.fetchRegistry], env.fs⟩
          | some repoStr =>
            if repoStr = [] then ⟨false, [.fetchRegistry], env.fs⟩
            else
              match repoStr.splitOn '/' with
              | [owner, repoName] =>
                match env.releaseFor owner repoName with
                | .error _ =>
                    ⟨false, [.fetchRegistry, .fetchRelease owner repoName], env.fs⟩
                | .ok none =>
                    ⟨false, [.fetchRegistry, .fetchRelease owner repoName], env.fs⟩
                | .ok (some assets) =>
                  if env.writable = false then
                    ⟨false, [.fetchRegistry, .fetchRelease owner repoName], env.fs⟩
                  else
                    let fs1 := addPath env.fs pluginFolder
                    match assets.find? (fun a => endsWith a.name (str ".zip")) with
                    | some zipAsset =>
                      let zipPath := pathJoin pluginsFolder (pluginId ++ str ".zip")
                      if env.downloadOk zipAsset.url = false then
                        ⟨false, [.fetchRegistry, .fetchRelease owner repoName,
                          .download zipAsset.url zipPath], fs1⟩
                      else if env.zipOversize then
                        ⟨false, [.fetchRegistry, .fetchRelease owner repoName,
                          .download zipAsset.url zipPath], fs1⟩
                      else if env.unzipOk = false then
                        ⟨false, [.fetchRegistry, .fetchRelease owner repoName,
                          .download zipAsset.url zipPath], fs1⟩
                      else
                        ⟨true, [.fetchRegistry, .fetchRelease owner repoName,
                          .download zipAsset.url zipPath], fs1⟩
                    | none =>
                      if assets.length > 0 then
                        ⟨true, [.fetchRegistry, .fetchRelease owner repoName]
                            ++ assets.map
                              (fun a => .download a.url (pathJoin pluginFolder a.name)),
                          fs1⟩
                      else
                        ⟨false, [.fetchRegistry, .fetchRelease owner repoName], fs1⟩
              | _ => ⟨false, [.fetchRegistry], env.fs⟩

/-- The full install run over a declared identifier list: installs are
strictly sequential and thread the filesystem state; the remote side is
fetched fresh each call (the environment's registry and release oracles
answer every call identically, and every fetch is recorded as an event). -/
def installRun (env : InstallEnv) (pluginsFolder : List Char) :
    List (List Char) → List Ev × (List Char → Bool)
  | [] => ([], env.fs)
  | id :: rest =>
      let r := installPluginById env id pluginsFolder
      let next := installRun { env with fs := r.fs } pluginsFolder rest
      (r.events ++ next.1, next.2)

/-- Registry lookups among a list of events. -/
def countReg (l : List Ev) : Nat :=
  l.countP (fun e => match e with | .fetchRegistry => true | _ => false)

theorem installPluginById_fs_mono (env : InstallEnv)
    (pluginId pluginsFolder p : List Char) (h : env.fs p = true) :
    (installPluginById env pluginId pluginsFolder).fs p = true := by
  unfold installPluginById
  split
  · simp [h]
  · by_cases hfs : env.fs (pathJoin pluginsFolder pluginId) = true
    · rw [if_pos hfs]; simp [h]
    · rw [if_neg hfs]
      repeat' split
      all_goals simp [addPath, h]

theorem installPluginById_countReg_le_one (env : InstallEnv)
    (pluginId pluginsFolder : List Char) :
    countReg (installPluginById env pluginId pluginsFolder).events ≤ 1 := by
  unfold installPluginById
  split
  · simp [countReg]
  · by_cases hfs : env.fs (pathJoin pluginsFolder pluginId) = true
    · rw [if_pos hfs]; simp [countReg]
    · rw [if_neg hfs]
      repeat' split
      all_goals simp [countReg, List.countP_append, List.countP_map,
        List.countP_cons]

theorem installPluginById_already (env : InstallEnv)
    (pluginId pluginsFolder : List Char)
    (h1 : trimL pluginId ≠ [])
    (h2 : env.fs (pathJoin pluginsFolder pluginId) = true) :
    installPluginById env pluginId pluginsFolder = ⟨true, [], env.fs⟩ := by
  unfold installPluginById
  rw [if_neg h1]
  simp only [h2, if_true]

theorem installRun_countReg (pluginsFolder : List Char) (fs0 : List Char → Bool) :
    ∀ (ids : List (List Char)) (env : InstallEnv),
      (∀ p, fs0 p = true → env.fs p = true) →
      countReg (installRun env pluginsFolder ids).1
        ≤ ids.length
          - (ids.filter (fun id => fs0 (pathJoin pluginsFolder id))).length := by
  intro ids
  induction ids with
  | nil => intro env _; simp [installRun, countReg]
  | cons id rest ih =>
    intro env hmono
    have hmono' : ∀ p, fs0 p = true →
        ({ env with fs := (installPluginById env id pluginsFolder).fs }
          : InstallEnv).fs p = true :=
      fun p hp => installPluginById_fs_mono env id pluginsFolder p (hmono p hp)
    have hrec := ih { env with fs := (installPluginById env id pluginsFolder).fs }
      hmono'
    have hfle := List.length_filter_le
      (fun i => fs0 (pathJoin pluginsFolder i)) rest
    simp only [installRun, countReg, List.countP_append] at hrec ⊢
    cases hf : fs0 (pathJoin pluginsFolder id) with
    | true =>
      have hev : (installPluginById env id pluginsFolder).events = [] := by
        by_cases ht : trimL id = []
        · simp [installPluginById, ht]
        · rw [installPluginById_already env id pluginsFolder ht (hmono _ hf)]
      rw [hev]
      have hlen : ((id :: rest).filter
          (fun i => fs0 (pathJoin pluginsFolder i))).length
          = (rest.filter (fun i => fs0 (pathJoin pluginsFolder i))).length + 1 := by
        simp [List.filter_cons, hf]
      simp only [List.countP_nil, hlen, List.length_cons]
      omega
    | false =>
      have hone := installPluginById_countReg_le_one env id pluginsFolder
      simp only [countReg] at hone
      have hlen : ((id :: rest).filter
          (fun i => fs0 (pathJoin pluginsFolder i))).length
          = (rest.filter (fun i => fs0 (pathJoin pluginsFolder i))).length := by
        simp [List.filter_cons, hf]
      simp only [hlen, List.length_cons]
      omega

/-- C9: an install call for an identifier whose plugin folder already
exists returns true and performs no network event at all; consequently a
full run over a declared identifier list issues at most N − M registry
lookups, where M counts the identifiers already installed when the run
starts. -/
theorem install_idempotent_and_lookup_bound :
    (∀ (env : InstallEnv) (pluginId pluginsFolder : List Char),
        trimL pluginId ≠ [] →
        env.fs (pathJoin pluginsFolder pluginId) = true →
        (installPluginById env pluginId pluginsFolder).ok = true
        ∧ (installPluginById env pluginId pluginsFolder).events = [])
    ∧ (∀ (env : InstallEnv) (pluginsFolder : List Char) (ids : List (List Char)),
        countReg (installRun env pluginsFolder ids).1
          ≤ ids.length
            - (ids.filter (fun id => env.fs (pathJoin pluginsFolder id))).length) := by
  constructor
  · intro env id pf h1 h2
    rw [installPluginById_already env id pf h1 h2]
    exact ⟨rfl, rfl⟩
  · intro env pf ids
    exact installRun_countReg pf env.fs ids env (fun _ hp => hp)

/-- World for the idempotence witness: the folder for "a" exists, every
network access fails (so any attempted lookup would be visible as an
event and a failure). -/
def envC9 : InstallEnv :=
  { fs := fun p => p == pathJoin (str "root") (str "a")
    registry := .error ()
    releaseFor := fun _ _ => .error ()
    writable := true
    downloadOk := fun _ => false
    zipOversize := false
    unzipOk := false }

/-- C9 (witness): an already-installed identifier reports success with no
events, and a two-identifier run with one already installed performs at
most one registry lookup. -/
theorem install_idempotent_and_lookup_bound_witness :
    ((installPluginById envC9 (str "a") (str "root")).ok = true
      ∧ (installPluginById envC9 (str "a") (str "root")).events = [])
    ∧ countReg (installRun envC9 (str "root") [str "a", str "b"]).1
        ≤ [str "a", str "b"].length
          - ([str "a", str "b"].filter
              (fun id => envC9.fs (pathJoin (str "root") id))).length :=
  ⟨install_idempotent_and_lookup_bound.1 envC9 (str "a") (str "root")
      (by decide) (by decide),
   install_idempotent_and_lookup_bound.2 envC9 (str "root") [str "a", str "b"]⟩

/-- C10: an install call never removes an existing path (in particular
the plugin folder created before the acquisition phase survives a
failing download, size check, or extraction), and whenever a call
returns false with the plugin folder present afterwards, an immediately
repeated call for the same identifier returns true with no network
events (so the download is not retried). -/
theorem install_failure_keeps_folder :
    (∀ (env : InstallEnv) (pluginId pluginsFolder p : List Char),
        env.fs p = true →
        (installPluginById env pluginId pluginsFolder).fs p = true)
    ∧ (∀ (env : InstallEnv) (pluginId pluginsFolder : List Char),
        trimL pluginId ≠ [] →
        (installPluginById env pluginId pluginsFolder).ok = false →
        (installPluginById env pluginId pluginsFolder).fs
            (pathJoin pluginsFolder pluginId) = true →
        (installPluginById
            { env with fs := (installPluginById env pluginId pluginsFolder).fs }
            pluginId pluginsFolder).ok = true
        ∧ (installPluginById
            { env with fs := (installPluginById env pluginId pluginsFolder).fs }
            pluginId pluginsFolder).events = []) := by
  constructor
  · intro env pluginId pluginsFolder p h
    exact installPluginById_fs_mono env pluginId pluginsFolder p h
  · intro env pluginId pluginsFolder h1 _ h3
    rw [installPluginById_already _ pluginId pluginsFolder h1 h3]
    exact ⟨rfl, rfl⟩

/-- World for the failed-install witness: resolution succeeds, the
release has a zip asset, but its download fails, so the install fails
after the plugin folder was created. -/
def envC10 : InstallEnv :=
  { fs := fun _ => false
    registry := .ok [⟨str "pluginA", some (str "o/r")⟩]
    releaseFor := fun _ _ => .ok (some [⟨str "plug.zip", str "http"⟩])
    writable := true
    downloadOk := fun _ => false
    zipOversize := false
    unzipOk := false }

/-- C10 (witness): after a failed download the folder persists and the
repeated call succeeds with no events. -/
theorem install_failure_keeps_folder_witness :
    (installPluginById
        { envC10 with fs := (installPluginById envC10 (str "pluginA") (str "root")).fs }
        (str "pluginA") (str "root")).ok = true
    ∧ (installPluginById
        { envC10 with fs := (installPluginById envC10 (str "pluginA") (str "root")).fs }
        (str "pluginA") (str "root")).events = [] :=
  install_failure_keeps_folder.2 envC10 (str "pluginA") (str "root")
    (by decide) (by decide) (by decide)

/-- Which repo field values pass the source's validation: present,
non-empty, and splitting into exactly two segments on the slash — the
segments themselves are never checked for emptiness. -/
def repoAccepted : Option (List Char) → Bool
  | none => false
  | some r => !(r == []) && ((r.splitOn '/').length == 2)

/-- World for the repo-validation counterexample: the matched entry's
repo is "owner/", whose second segment is empty. -/
def env5 : InstallEnv :=
  { fs := fun _ => false
    registry := .ok [⟨str "plug", some (str "owner/")⟩]
    releaseFor := fun _ _ => .error ()
    writable := true
    downloadOk := fun _ => false
    zipOversize := false
    unzipOk := false }

/-- C5 (counterexample): with repo "owner/" — two segments, the second
empty — the install does not stop at validation: it proceeds to fetch
the release for owner "owner" and empty repo name, contradicting the
claim that any empty segment is rejected with no further network access. -/
theorem repo_validation_counterexample :
    (installPluginById env5 (str "plug") (str "root")).events
      = [.fetchRegistry, .fetchRelease (str "owner") []] := by
  decide

/-- C5 (amended): a matched entry is rejected at validation — returning
false with only the registry fetch performed — exactly when the repo
field is missing, not a string, empty, or does not split into exactly
two segments on the slash; segments may be empty, and whenever the field
splits into exactly two (possibly empty) segments the release fetch for
those segments proceeds. -/
theorem repo_validation_amended (env : InstallEnv)
    (pluginId pluginsFolder : List Char)
    (reg : List RegEntry) (meta : RegEntry)
    (h1 : trimL pluginId ≠ [])
    (h2 : env.fs (pathJoin pluginsFolder pluginId) = false)
    (h3 : env.registry = .ok reg)
    (h4 : reg.find? (fun p => lowerL (trimL p.id) == lowerL (trimL pluginId))
        = some meta) :
    (repoAccepted meta.repo = false →
      installPluginById env pluginId pluginsFolder
        = ⟨false, [.fetchRegistry], env.fs⟩)
    ∧ (∀ rs o rn, meta.repo = some rs → rs ≠ [] → rs.splitOn '/' = [o, rn] →
        ∃ tail, (installPluginById env pluginId pluginsFolder).events
          = .fetchRegistry :: .fetchRelease o rn :: tail) := by
  constructor
  · intro hrej
    cases hrepo : meta.repo with
    | none => simp [installPluginById, h1, h2, h3, h4, hrepo]
    | some rs =>
      rw [hrepo] at hrej
      simp only [repoAccepted, Bool.and_eq_false_iff, Bool.not_eq_false',
        beq_iff_eq] at hrej
      by_cases hemp : rs = []
      · simp [installPluginById, h1, h2, h3, h4, hrepo, hemp]
      · have hlen : (rs.splitOn '/').length ≠ 2 := by
          rcases hrej with hrej | hrej
          · exact absurd hrej hemp
          · simpa using hrej
        rcases hsp : rs.splitOn '/' with _ | ⟨a, _ | ⟨b, _ | ⟨c, t⟩⟩⟩
        · simp [installPluginById, h1, h2, h3, h4, hrepo, hemp, hsp]
        · simp [installPluginById, h1, h2, h3, h4, hrepo, hemp, hsp]
        · exact absurd (by simp [hsp]) hlen
        · simp [installPluginById, h1, h2, h3, h4, hrepo, hemp, hsp]
  · intro rs o rn hrepo hne hsp
    simp only [installPluginById]
    rw [if_neg h1, if_neg (by simp [h2]), h3]
    simp only [h4, hrepo]
    rw [if_neg hne]
    simp only [hsp]
    split
    all_goals repeat' split
    all_goals exact ⟨_, rfl⟩

/-- C5 (amended, witness): a repo value of "a//b" (three segments) is
rejected with only the registry fetch, and a repo of "o/r" proceeds to
the release fetch. -/
theorem repo_validation_amended_witness :
    installPluginById
        { env5 with registry := .ok [⟨str "plug", some (str "a//b")⟩] }
        (str "plug") (str "root")
      = ⟨false, [.fetchRegistry],
          ({ env5 with registry := .ok [⟨str "plug", some (str "a//b")⟩] }
            : InstallEnv).fs⟩
    ∧ ∃ tail, (installPluginById envC10 (str "pluginA") (str "root")).events
        = .fetchRegistry :: .fetchRelease (str "o") (str "r") :: tail :=
  ⟨(repo_validation_amended
      { env5 with registry := .ok [⟨str "plug", some (str "a//b")⟩] }
      (str "plug") (str "root") [⟨str "plug", some (str "a//b")⟩]
      ⟨str "plug", some (str "a//b")⟩
      (by decide) rfl rfl (by decide)).1 (by decide),
   (repo_validation_amended envC10 (str "pluginA") (str "root")
      [⟨str "pluginA", some (str "o/r")⟩] ⟨str "pluginA", some (str "o/r")⟩
      (by decide) rfl rfl (by decide)).2 (str "o/r") (str "o") (str "r")
      rfl (by decide) (by decide)⟩

/-! Enable reconciliation (PluginEnabler.enableInstalledPlugins). -/

/-- One entry of the host's pluginsApi.plugins mapping: its key and the
optional id of its manifest, used by the alternative resolution scan. -/
structure PLEntry where
  key : List Char
  manifestId : Option (List Char)
deriving DecidableEq

/-- The host-owned manifest registry as observable at one point in time:
the manifest keys in enumeration order, the pluginsApi.plugins entries,
the set of enabled keys, whether the host's enablePlugin capability is
present, and whether an enable call for a key resolves (true) or rejects
(false).  The source captures one reference to the live registry object
before the attempt loop and re-enumerates it at every call, so the
observable contents are a function of time. -/
structure ManifestState where
  manifests : List (List Char)
  pluginsList : List PLEntry
  enabledKeys : List (List Char)
  enableAvailable : Bool
  enableCall : List Char → Bool

/-- Full resolution of enableSinglePlugin: the manifest-key scan
(lines 303–324) followed by the alternative pluginsApi.plugins scan
(lines 327–347). -/
def resolveFull (st : ManifestState) (pluginId : List Char) :
    Option (List Char) :=
  match resolvePluginId st.manifests pluginId with
  | some a => some a
  | none =>
      (st.pluginsList.find?
          (fun e => e.key == pluginId || e.manifestId == some pluginId)).map
        PLEntry.key

/-- The outcome of one enableSinglePlugin call: enabled (already enabled
or enable call succeeded), not-enabled (unresolved or capability
missing: the source's enabled-false/failed-true result), or a rejected
enable call (the thrown case caught by the loop). -/
inductive SingleResult where
  | ok (actualId : List Char)
  | notEnabled (actualId : List Char)
  | thrown
deriving DecidableEq

/-- Whether the outcome is the enabled one. -/
def SingleResult.isOk : SingleResult → Bool
  | .ok _ => true
  | _ => false

/-- Model of PluginEnabler.enableSinglePlugin at one manifest state:
resolve the identifier, report success if the resolved key is already
enabled, otherwise invoke the host's enable capability when present. -/
def enableSinglePlugin (st : ManifestState) (pluginId : List Char) :
    SingleResult :=
  match resolveFull st pluginId with
  | none => .notEnabled pluginId
  | some actualId =>
    if st.enabledKeys.contains actualId then .ok actualId
    else if st.enableAvailable then
      if st.enableCall actualId then .ok actualId else .thrown
    else .notEnabled actualId

/-- The mutable accounting of the attempt loop (lines 119–122). -/
structure LoopState where
  enabledCount : Nat
  failedCount : Nat
  failedPlugins : List (List Char)
  successfullyEnabled : List (List Char)
deriving DecidableEq

/-- The state before the first attempt. -/
def initLoopState : LoopState := ⟨0, 0, [], []⟩

/-- The failure bookkeeping shared by the failed-result and the caught
exception paths (lines 165–180): a failure is recorded only on the final
attempt, and only if the identifier is not already recorded. -/
def recordFailure (attempt : Nat) (s : LoopState) (id : List Char) : LoopState :=
  if attempt = 2 then
    if s.failedPlugins.contains id then s
    else
      { s with failedPlugins := s.failedPlugins ++ [id]
               failedCount := s.failedCount + 1 }
  else s

/-- One iteration of the inner loop (lines 131–182): skip identifiers
already enabled; on success increment the enabled count, remember the
identifier, and drop it (with its tally) from the failure record if an
earlier attempt had recorded it; on failure defer to recordFailure. -/
def processId (st : ManifestState) (attempt : Nat) (s : LoopState)
    (id : List Char) : LoopState :=
  if s.successfullyEnabled.contains id then s
  else
    match enableSinglePlugin st id with
    | .ok _ =>
        if s.failedPlugins.contains id then
          { enabledCount := s.enabledCount + 1
            failedCount := s.failedCount - 1
            failedPlugins := s.failedPlugins.erase id
            successfullyEnabled := s.successfullyEnabled ++ [id] }
        else
          { s with enabledCount := s.enabledCount + 1
                   successfullyEnabled := s.successfullyEnabled ++ [id] }
    | .notEnabled _ => recordFailure attempt s id
    | .thrown => recordFailure attempt s id

/-- One full pass over the identifier list at a fixed attempt index,
reading the manifest registry as it stands at that attempt. -/
def runAttempt (st : ManifestState) (attempt : Nat) (ids : List (List Char))
    (s : LoopState) : LoopState :=
  ids.foldl (processId st attempt) s

/-- The three strictly sequential attempts (lines 125–188), each reading
the manifest state of its own attempt index, with the early exit once
every identifier is enabled. -/
def runAttempts (env : Nat → ManifestState) (ids : List (List Char)) :
    LoopState :=
  let s1 := runAttempt (env 0) 0 ids initLoopState
  if s1.successfullyEnabled.length = ids.length then s1
  else
    let s2 := runAttempt (env 1) 1 ids s1
    if s2.successfullyEnabled.length = ids.length then s2
    else runAttempt (env 2) 2 ids s2

/-- The pre-loop filesystem filter (lines 86–98): drop empty or
whitespace-only identifiers, trim the rest, and keep those whose plugin
folder exists. -/
def filterInstalled (fs : List Char → Bool) (pluginsFolder : List Char)
    (ids : List (List Char)) : List (List Char) :=
  ids.foldr
    (fun id acc =>
      if trimL id = [] then acc
      else if fs (pathJoin pluginsFolder (trimL id)) then trimL id :: acc
      else acc)
    []

/-- The record returned by enableInstalledPlugins. -/
structure EnableResult where
  enabled : Nat
  failed : Nat
  failedPlugins : List (List Char)
deriving DecidableEq

/-- Model of PluginEnabler.enableInstalledPlugins: empty input and
no-installed-plugin inputs return the zero result without running the
loop; otherwise the three-attempt loop runs over the filtered list and
its tallies are returned. -/
def enableInstalledPlugins (env : Nat → ManifestState)
    (fs : List Char → Bool) (pluginsFolder : List Char)
    (pluginIds : List (List Char)) : EnableResult :=
  if pluginIds = [] then ⟨0, 0, []⟩
  else
    let installed := filterInstalled fs pluginsFolder pluginIds
    if installed = [] then ⟨0, 0, []⟩
    else
      let s := runAttempts env installed
      ⟨s.enabledCount, s.failedCount, s.failedPlugins⟩

/-- Boolean membership agrees with list membership for identifiers. -/
theorem contains_iff_memL (l : List (List Char)) (a : List Char) :
    l.contains a = true ↔ a ∈ l := by
  simp [List.contains]

/-- The accounting invariant of the attempt loop: the failure tally
matches the failure list, the enabled tally matches the enabled set, the
failure list has no duplicates, and every recorded failure is an
identifier that is not enabled and whose call at the final attempt's
manifest state is not a success. -/
def LoopInv (m2 : ManifestState) (s : LoopState) : Prop :=
  s.failedCount = s.failedPlugins.length
  ∧ s.enabledCount = s.successfullyEnabled.length
  ∧ s.failedPlugins.Nodup
  ∧ ∀ id, id ∈ s.failedPlugins →
      id ∉ s.successfullyEnabled ∧ (enableSinglePlugin m2 id).isOk = false

theorem recordFailure_inv (m2 : ManifestState) (a : Nat) (s : LoopState)
    (id : List Char)
    (hfail : a = 2 → (enableSinglePlugin m2 id).isOk = false)
    (hnotmem : id ∉ s.successfullyEnabled)
    (hinv : LoopInv m2 s) : LoopInv m2 (recordFailure a s id) := by
  obtain ⟨h1, h2, h3, h4⟩ := hinv
  unfold recordFailure
  split
  · rename_i ha2
    split
    · exact ⟨h1, h2, h3, h4⟩
    · rename_i hfc
      have hfm : id ∉ s.failedPlugins := fun hm =>
        hfc ((contains_iff_memL _ _).2 hm)
      refine ⟨by simp [h1], h2, ?_, ?_⟩
      · simp [List.nodup_append, h3, hfm]
      · intro id' hid'
        rcases List.mem_append.1 hid' with hm | hm
        · exact h4 id' hm
        · have he : id' = id := List.mem_singleton.1 hm
          subst he
          exact ⟨hnotmem, hfail ha2⟩
  · exact ⟨h1, h2, h3, h4⟩

theorem processId_inv (m2 st : ManifestState) (a : Nat) (s : LoopState)
    (id : List Char) (hst : a = 2 → st = m2) (hinv : LoopInv m2 s) :
    LoopInv m2 (processId st a s id) := by
  obtain ⟨h1, h2, h3, h4⟩ := hinv
  unfold processId
  split
  · exact ⟨h1, h2, h3, h4⟩
  · rename_i hskip
    have hskip' : id ∉ s.successfullyEnabled := fun hm =>
      hskip ((contains_iff_memL _ _).2 hm)
    split
    · rename_i actual hres
      split
      · rename_i hfc
        have hfm : id ∈ s.failedPlugins := (contains_iff_memL _ _).1 hfc
        refine ⟨?_, by simp [h2], h3.erase id, ?_⟩
        · simp [List.length_erase_of_mem hfm, h1]
        · intro id' hid'
          have hne : id' ≠ id ∧ id' ∈ s.failedPlugins :=
            (h3.mem_erase_iff).1 hid'
          refine ⟨?_, (h4 id' hne.2).2⟩
          intro hmem
          rcases List.mem_append.1 hmem with hm | hm
          · exact (h4 id' hne.2).1 hm
          · exact hne.1 (List.mem_singleton.1 hm)
      · rename_i hfc
        have hfm : id ∉ s.failedPlugins := fun hm =>
          hfc ((contains_iff_memL _ _).2 hm)
        refine ⟨h1, by simp [h2], h3, ?_⟩
        intro id' hid'
        refine ⟨?_, (h4 id' hid').2⟩
        intro hmem
        rcases List.mem_append.1 hmem with hm | hm
        · exact (h4 id' hid').1 hm
        · exact hfm (List.mem_singleton.1 hm ▸ hid')
    · rename_i actual hres
      refine recordFailure_inv m2 a s id ?_ hskip' ⟨h1, h2, h3, h4⟩
      intro ha
      rw [hst ha] at hres
      rw [hres]
      rfl
    · rename_i hres
      refine recordFailure_inv m2 a s id ?_ hskip' ⟨h1, h2, h3, h4⟩
      intro ha
      rw [hst ha] at hres
      rw [hres]
      rfl

theorem runAttempt_inv (m2 st : ManifestState) (a : Nat)
    (ids : List (List Char)) (hst : a = 2 → st = m2) :
    ∀ s, LoopInv m2 s → LoopInv m2 (runAttempt st a ids s) := by
  induction ids with
  | nil => intro s h; exact h
  | cons id rest ih =>
    intro s h
    exact ih (processId st a s id) (processId_inv m2 st a s id hst h)

theorem initLoopState_inv (m2 : ManifestState) : LoopInv m2 initLoopState := by
  refine ⟨rfl, rfl, List.nodup_nil, ?_⟩
  intro id hid
  simp [initLoopState] at hid

theorem runAttempts_inv (env : Nat → ManifestState) (ids : List (List Char)) :
    LoopInv (env 2) (runAttempts env ids) := by
  simp only [runAttempts]
  have h1 := runAttempt_inv (env 2) (env 0) 0 ids
    (fun h => absurd h (by decide)) initLoopState (initLoopState_inv (env 2))
  split
  · exact h1
  · have h2 := runAttempt_inv (env 2) (env 1) 1 ids
      (fun h => absurd h (by decide)) _ h1
    split
    · exact h2
    · exact runAttempt_inv (env 2) (env 2) 2 ids (fun _ => rfl) _ h2

/-- C2: in the reconciler's result the failure tally always equals the
length of the failure list; the enabled tally counts each identifier
that reached the enabled state exactly once; an identifier that reached
the enabled state on any attempt is absent from the final failure list;
and every identifier in the final failure list is one that is not
enabled and whose enable call against the final attempt's manifest state
is not a success. -/
theorem enable_result_accounting (env : Nat → ManifestState)
    (fs : List Char → Bool) (pluginsFolder : List Char)
    (pluginIds : List (List Char)) :
    (enableInstalledPlugins env fs pluginsFolder pluginIds).failed
      = (enableInstalledPlugins env fs pluginsFolder pluginIds).failedPlugins.length
    ∧ (enableInstalledPlugins env fs pluginsFolder pluginIds).enabled
      = (runAttempts env
          (filterInstalled fs pluginsFolder pluginIds)).successfullyEnabled.length
    ∧ (∀ id, id ∈ (runAttempts env
          (filterInstalled fs pluginsFolder pluginIds)).successfullyEnabled →
        id ∉ (enableInstalledPlugins env fs pluginsFolder pluginIds).failedPlugins)
    ∧ (∀ id, id ∈ (enableInstalledPlugins env fs pluginsFolder
          pluginIds).failedPlugins →
        id ∉ (runAttempts env
            (filterInstalled fs pluginsFolder pluginIds)).successfullyEnabled
        ∧ (enableSinglePlugin (env 2) id).isOk = false) := by
  simp only [enableInstalledPlugins]
  split
  · rename_i hp
    subst hp
    refine ⟨rfl, rfl, ?_, ?_⟩
    · intro id hid hmem
      simp at hmem
    · intro id hid
      simp at hid
  · split
    · rename_i hin
      rw [hin]
      refine ⟨rfl, rfl, ?_, ?_⟩
      · intro id hid hmem
        simp at hmem
      · intro id hid
        simp at hid
    · obtain ⟨h1, h2, h3, h4⟩ :=
        runAttempts_inv env (filterInstalled fs pluginsFolder pluginIds)
      refine ⟨h1, h2, ?_, h4⟩
      intro id hid hmem
      exact (h4 id hmem).1 hid

/-- Manifest environment for the accounting witness: identifier "a"
resolves and enables from attempt 0 on, identifier "b" never resolves. -/
def envC2 : Nat → ManifestState :=
  fun _ => ⟨[str "a"], [], [], true, fun _ => true⟩

/-- C2 (witness): the accounting theorem applied at a run where "a"
enables and "b" fails on the final attempt. -/
theorem enable_result_accounting_witness :
    (enableInstalledPlugins envC2 (fun _ => true) (str "pf")
        [str "a", str "b"]).failed
      = (enableInstalledPlugins envC2 (fun _ => true) (str "pf")
          [str "a", str "b"]).failedPlugins.length
    ∧ (str "b") ∉ (runAttempts envC2
        (filterInstalled (fun _ => true) (str "pf")
          [str "a", str "b"])).successfullyEnabled :=
  ⟨(enable_result_accounting envC2 (fun _ => true) (str "pf")
      [str "a", str "b"]).1,
   ((enable_result_accounting envC2 (fun _ => true) (str "pf")
      [str "a", str "b"]).2.2.2 (str "b") (by decide)).1⟩

/-- C3: each attempt's resolution reads the manifest registry as it
stands at that attempt: an identifier that is pending after attempt 0
(its call at the attempt-0 state is not a success) and whose manifest
entry has appeared by attempt 1 — so that its call at the attempt-1
state succeeds — ends the run enabled with no failure recorded, and
likewise for an entry appearing only by attempt 2. -/
theorem attempts_read_current_manifest (env : Nat → ManifestState)
    (id actualId : List Char) :
    ((enableSinglePlugin (env 0) id).isOk = false →
      enableSinglePlugin (env 1) id = .ok actualId →
      runAttempts env [id] = ⟨1, 0, [], [id]⟩)
    ∧ ((enableSinglePlugin (env 0) id).isOk = false →
      (enableSinglePlugin (env 1) id).isOk = false →
      enableSinglePlugin (env 2) id = .ok actualId →
      runAttempts env [id] = ⟨1, 0, [], [id]⟩) := by
  have hcontains : (initLoopState.successfullyEnabled.contains id) = false := rfl
  have hs1 : ∀ st a, (enableSinglePlugin st id).isOk = false → a ≠ 2 →
      processId st a initLoopState id = initLoopState := by
    intro st a h ha
    unfold processId
    rw [if_neg (by simp [initLoopState])]
    cases hres : enableSinglePlugin st id with
    | ok b =>
      rw [hres] at h
      simp [SingleResult.isOk] at h
    | notEnabled b => simp [recordFailure, ha]
    | thrown => simp [recordFailure, ha]
  have hok : ∀ st a, enableSinglePlugin st id = .ok actualId →
      processId st a initLoopState id = ⟨1, 0, [], [id]⟩ := by
    intro st a h
    unfold processId
    rw [if_neg (by simp [initLoopState])]
    rw [h]
    rfl
  constructor
  · intro h0 h1
    have e0 : runAttempt (env 0) 0 [id] initLoopState = initLoopState := by
      simp only [runAttempt, List.foldl_cons, List.foldl_nil]
      exact hs1 (env 0) 0 h0 (by decide)
    have e1 : runAttempt (env 1) 1 [id] initLoopState = ⟨1, 0, [], [id]⟩ := by
      simp only [runAttempt, List.foldl_cons, List.foldl_nil]
      exact hok (env 1) 1 h1
    simp only [runAttempts, e0, e1]
    simp [initLoopState]
  · intro h0 h1 h2
    have e0 : runAttempt (env 0) 0 [id] initLoopState = initLoopState := by
      simp only [runAttempt, List.foldl_cons, List.foldl_nil]
      exact hs1 (env 0) 0 h0 (by decide)
    have e1 : runAttempt (env 1) 1 [id] initLoopState = initLoopState := by
      simp only [runAttempt, List.foldl_cons, List.foldl_nil]
      exact hs1 (env 1) 1 h1 (by decide)
    have e2 : runAttempt (env 2) 2 [id] initLoopState = ⟨1, 0, [], [id]⟩ := by
      simp only [runAttempt, List.foldl_cons, List.foldl_nil]
      exact hok (env 2) 2 h2
    simp only [runAttempts, e0, e1, e2]
    simp [initLoopState]

/-- Manifest environment for the visibility witness: the registry is
empty at attempt 0 and exposes key "foo" from attempt 1 on. -/
def envC3 : Nat → ManifestState := fun n =>
  if n = 0 then ⟨[], [], [], true, fun _ => true⟩
  else ⟨[str "foo"], [], [], true, fun _ => true⟩

/-- C3 (witness): an identifier unresolvable at attempt 0 whose manifest
entry appears by attempt 1 ends the run enabled with no failure. -/
theorem attempts_read_current_manifest_witness :
    runAttempts envC3 [str "foo"] = ⟨1, 0, [], [str "foo"]⟩ :=
  (attempts_read_current_manifest envC3 (str "foo") (str "foo")).1
    (by decide) (by decide)

end Installer
